import Mathlib

/-!
Verification of the query-understanding and answer-ranking pipeline of the
wiki chatbot repository (src/chatbot.py and src/chatboy.py).

Python strings are embedded as lists of Unicode code points (`List Nat`).
All concrete inputs of the claims are ASCII; case operations (str.lower,
str.istitle, str.isupper) and the character classes of the regular
expressions (\w, \s, \d) are modelled with their ASCII semantics.
-/

set_option maxRecDepth 20000

/-- Code points of a string literal, used to write concrete Python strings. -/
def cp (s : String) : List Nat := s.data.map Char.toNat

/-- ASCII model of Python str.lower applied to one code point. -/
def lowerChar (c : Nat) : Nat := if 65 ≤ c ∧ c ≤ 90 then c + 32 else c

/-- Python str.lower over a whole string (per code point, ASCII range). -/
def lowerCps (l : List Nat) : List Nat := l.map lowerChar

/-- The regex class \w (ASCII): letters, digits, underscore. -/
def isWordCp (c : Nat) : Bool :=
  decide ((48 ≤ c ∧ c ≤ 57) ∨ (65 ≤ c ∧ c ≤ 90) ∨ (97 ≤ c ∧ c ≤ 122) ∨ c = 95)

/-- The regex class \s (ASCII): space, tab, newline, vertical tab, form feed, carriage return. -/
def isSpaceCp (c : Nat) : Bool := decide (c = 32 ∨ c = 9 ∨ c = 10 ∨ c = 11 ∨ c = 12 ∨ c = 13)

/-- The regex class \d (ASCII digits). -/
def isDigitCp (c : Nat) : Bool := decide (48 ≤ c ∧ c ≤ 57)

/-- Is the code point at index i a word character (false out of range). -/
def wordAt (s : List Nat) (i : Nat) : Bool :=
  match s.get? i with
  | some c => isWordCp c
  | none => false

/-- Is there a word character just before position p (false at position 0). -/
def prevWordAt (s : List Nat) : Nat → Bool
  | 0 => false
  | p + 1 => wordAt s p

/-- The regex anchor \b at position p of s: exactly one side of the position is a word character. -/
def wordBoundaryAt (s : List Nat) (p : Nat) : Bool := prevWordAt s p != wordAt s p

/-- Length of the maximal whitespace prefix of l (greedy \s* / \s+). -/
def wsRun (l : List Nat) : Nat := (l.takeWhile isSpaceCp).length

/-- Length of the maximal digit prefix of l (greedy \d+). -/
def digitRun (l : List Nat) : Nat := (l.takeWhile isDigitCp).length

/-- Python str.strip: drop leading and trailing whitespace (ASCII whitespace model). -/
def stripCps (l : List Nat) : List Nat :=
  ((l.dropWhile isSpaceCp).reverse.dropWhile isSpaceCp).reverse

/-- Python substring containment: hasSub hay needle is true when needle occurs
contiguously inside hay (needle in hay; the empty needle always occurs). -/
def hasSub : List Nat → List Nat → Bool
  | [], needle => needle.isEmpty
  | c :: t, needle => needle.isPrefixOf (c :: t) || hasSub t needle

/-- The list `range(s, s+n)`, used to embed the index loops of difflib. -/
def natRange (s : Nat) : Nat → List Nat
  | 0 => []
  | n + 1 => s :: natRange (s + 1) n

/-!
## difflib.SequenceMatcher (CPython), specialised to isjunk = None

The two scorers call SequenceMatcher(None, x, y).ratio().  The embedding
below follows the CPython implementation:

* b2j lists, for each element of b, its positions in b; with isjunk = None
  the junk set is empty, and autojunk removes the "popular" elements
  (elements of b occurring more than len(b)//100 + 1 times) when
  len(b) >= 200.
* find_longest_match runs the j2len dynamic programme over the listed
  (non-popular) positions, keeping the first (i, j) pair, in scan order,
  whose run length strictly exceeds the best so far, and then widens the
  winning block over equal (possibly popular) elements on both sides.
  The two junk-extension loops of CPython are no-ops here because the junk
  set is empty, and are omitted.
* get_matching_blocks recurses on the windows to the left and to the right
  of each winning block; ratio is 2*M/(len(a)+len(b)) where M is the total
  size of the matching blocks (1.0 when both strings are empty).
-/

/-- Autojunk popularity of the element at index j of b (CPython: only when len(b) >= 200,
elements with more than len(b)//100 + 1 occurrences are dropped from b2j). -/
def popularAt (b : List Nat) (j : Nat) : Bool :=
  match b.get? j with
  | some c => decide (200 ≤ b.length ∧ b.length / 100 + 1 < b.count c)
  | none => false

/-- Equality of the elements a[i] and b[j], false when either index is out of range. -/
def charEq (a b : List Nat) (i j : Nat) : Bool :=
  match a.get? i, b.get? j with
  | some x, some y => x == y
  | _, _ => false

/-- The pair (i, j) is recorded by the j2len dynamic programme: j lies in the current
b-window, the elements agree, and b[j] was not removed from b2j as popular. -/
def dpOK (a b : List Nat) (blo bhi i j : Nat) : Prop :=
  blo ≤ j ∧ j < bhi ∧ charEq a b i j = true ∧ popularAt b j = false

instance (a b : List Nat) (blo bhi i j : Nat) : Decidable (dpOK a b blo bhi i j) := by
  unfold dpOK; infer_instance

/-- Value of the j2len dynamic programme at (i, j): the length of the run of listed
matching pairs ending at (i, j); the predecessor (i-1, j-1) extends the run only when
it is itself inside the windows and listed in b2j. -/
def runLen (a b : List Nat) (alo blo bhi : Nat) : Nat → Nat → Nat
  | 0, _ => 1
  | i + 1, j =>
    if alo ≤ i ∧ 1 ≤ j ∧ dpOK a b blo bhi i (j - 1) then
      runLen a b alo blo bhi i (j - 1) + 1
    else 1

/-- All pairs (i, j) visited by the nested loops of find_longest_match, in scan order
(outer i ascending over [alo, ahi), inner j ascending over the listed positions). -/
def dpPairs (a b : List Nat) (alo ahi blo bhi : Nat) : List (Nat × Nat) :=
  (natRange alo (ahi - alo)).flatMap fun i =>
    ((natRange blo (bhi - blo)).filter fun j => decide (dpOK a b blo bhi i j)).map fun j => (i, j)

/-- The best-block fold of find_longest_match: the best triple (besti, bestj, bestsize)
is replaced exactly when the run length at the visited pair strictly exceeds bestsize. -/
def flmScan (a b : List Nat) (alo blo bhi : Nat) :
    List (Nat × Nat) → Nat × Nat × Nat → Nat × Nat × Nat
  | [], best => best
  | (i, j) :: rest, (bi, bj, bk) =>
    let k := runLen a b alo blo bhi i j
    if bk < k then flmScan a b alo blo bhi rest (i + 1 - k, j + 1 - k, k)
    else flmScan a b alo blo bhi rest (bi, bj, bk)

/-- The first widening loop of find_longest_match: extend the block to the left while
both windows allow it and the adjacent elements agree (the junk test is vacuous). -/
def extendLeft (a b : List Nat) (alo blo : Nat) : Nat → Nat → Nat → Nat × Nat × Nat
  | 0, j, k => (0, j, k)
  | i + 1, j, k =>
    if alo < i + 1 ∧ blo < j ∧ charEq a b i (j - 1) = true then
      extendLeft a b alo blo i (j - 1) (k + 1)
    else (i + 1, j, k)

/-- The second widening loop of find_longest_match: extend the block to the right while
both windows allow it and the adjacent elements agree; fuel bounds the iteration. -/
def extendRight (a b : List Nat) (ahi bhi i j : Nat) : Nat → Nat → Nat
  | 0, k => k
  | fuel + 1, k =>
    if i + k < ahi ∧ j + k < bhi ∧ charEq a b (i + k) (j + k) = true then
      extendRight a b ahi bhi i j fuel (k + 1)
    else k

/-- find_longest_match over the windows a[alo:ahi], b[blo:bhi]: the dynamic programme
starting from (alo, blo, 0), then the two widening loops. -/
def findLongestMatch (a b : List Nat) (alo ahi blo bhi : Nat) : Nat × Nat × Nat :=
  let dp := flmScan a b alo blo bhi (dpPairs a b alo ahi blo bhi) (alo, blo, 0)
  let el := extendLeft a b alo blo dp.1 dp.2.1 dp.2.2
  (el.1, el.2.1, extendRight a b ahi bhi el.1 el.2.1 ahi el.2.2)

/-- Total size of the matching blocks of get_matching_blocks on the given windows;
each nonempty winning block splits the windows as in CPython (a side window is only
revisited when it is nonempty in both sequences).  The fuel dominates the recursion
depth, which is bounded by the a-window size since that size strictly shrinks. -/
def matchSumF (a b : List Nat) : Nat → Nat → Nat → Nat → Nat → Nat
  | 0, _, _, _, _ => 0
  | fuel + 1, alo, ahi, blo, bhi =>
    let t := findLongestMatch a b alo ahi blo bhi
    let i := t.1
    let j := t.2.1
    let k := t.2.2
    if k = 0 then 0
    else
      k + (if alo < i ∧ blo < j then matchSumF a b fuel alo i blo j else 0)
        + (if i + k < ahi ∧ j + k < bhi then matchSumF a b fuel (i + k) ahi (j + k) bhi else 0)

/-- Total matched size M over the full sequences (fuel a.length + 1 exceeds the
recursion depth, so the recursion always runs to completion). -/
def matchSumTop (a b : List Nat) : Nat :=
  matchSumF a b (a.length + 1) 0 a.length 0 b.length

/-- SequenceMatcher(None, a, b).ratio() = 2*M/(len(a)+len(b)), and 1.0 when both are
empty (CPython _calculate_ratio). -/
def ratioQ (a b : List Nat) : ℚ :=
  if a.length + b.length = 0 then 1
  else (2 * (matchSumTop a b : ℚ)) / ((a.length : ℚ) + (b.length : ℚ))

/-!
## src/chatbot.py — LanguageProcessor and WikipediaResearcher
-/

/-- The spelling_corrections dict of LanguageProcessor (src/chatbot.py, lines 12-17);
dict.get(word, word) is first-match lookup with default, written as nested tests. -/
def correctWord (w : List Nat) : List Nat :=
  if w = cp "wat" then cp "what"
  else if w = cp "wut" then cp "what"
  else if w = cp "wht" then cp "what"
  else if w = cp "wen" then cp "when"
  else if w = cp "wer" then cp "where"
  else if w = cp "y" then cp "why"
  else if w = cp "hw" then cp "how"
  else if w = cp "r" then cp "are"
  else if w = cp "u" then cp "you"
  else if w = cp "tel" then cp "tell"
  else if w = cp "abt" then cp "about"
  else if w = cp "dis" then cp "this"
  else w

/-- Python str.split() with no argument: split on whitespace runs, no empty words. -/
def splitWAux : List Nat → List Nat → List (List Nat)
  | [], acc => if acc.isEmpty then [] else [acc.reverse]
  | c :: rest, acc =>
    if isSpaceCp c then
      if acc.isEmpty then splitWAux rest [] else acc.reverse :: splitWAux rest []
    else splitWAux rest (c :: acc)

/-- Python text.split() (whitespace splitting, empty words discarded). -/
def splitWords (l : List Nat) : List (List Nat) := splitWAux l []

/-- Python " ".join(words). -/
def joinWords : List (List Nat) → List Nat
  | [] => []
  | [w] => w
  | w :: ws => w ++ 32 :: joinWords ws

/-- LanguageProcessor.correct_spelling (src/chatbot.py, lines 33-37):
lowercase, split on whitespace, replace each word through the corrections dict,
rejoin with single spaces. -/
def correct_spelling (text : List Nat) : List Nat :=
  joinWords ((splitWords (lowerCps text)).map correctWord)

/-- WikipediaResearcher._calculate_relevance (src/chatbot.py, lines 208-221):
0.4 * ratio(query, title) + 0.6 * ratio(query, summary), +0.2 when the lowered query
is a substring of the lowered title or summary, capped at 1.0. -/
def calcRelevance (query title summary : List Nat) : ℚ :=
  let titleScore : ℚ := ratioQ (lowerCps query) (lowerCps title)
  let summaryScore : ℚ := ratioQ (lowerCps query) (lowerCps summary)
  let base : ℚ := titleScore * (4/10) + summaryScore * (6/10)
  let score : ℚ :=
    if hasSub (lowerCps title) (lowerCps query) || hasSub (lowerCps summary) (lowerCps query) then
      base + 2/10
    else base
  min score 1

/-- A wikipedia page object as used by the code: title, content, url and the
references list (only its emptiness is ever inspected, via Python truthiness). -/
structure Page where
  title : List Nat
  content : List Nat
  url : List Nat
  references : List (List Nat)
deriving DecidableEq

/-- WikipediaResearcher._verify_information (src/chatbot.py, lines 223-229):
+0.1 when the page has references, +0.1 when its content exceeds 1000 characters,
capped at 1.0. -/
def verifyInformation (baseScore : ℚ) (page : Page) : ℚ :=
  let s1 : ℚ := if page.references.isEmpty then baseScore else baseScore + 1/10
  let s2 : ℚ := if 1000 < page.content.length then s1 + 1/10 else s1
  min s2 1

/-- WikipediaResearcher._get_confidence_level (src/chatbot.py, lines 231-239). -/
def getConfidenceLevel (score : ℚ) : List Nat :=
  if 8/10 < score then cp "Very High"
  else if 6/10 < score then cp "High"
  else if 4/10 < score then cp "Medium"
  else cp "Low"

/-- The inline confidence bucketing of src/chatboy.py, line 99:
"High" if score > 0.6 else "Medium" if score > 0.3 else "Low". -/
def chatboyConfidence (score : ℚ) : List Nat :=
  if 6/10 < score then cp "High"
  else if 3/10 < score then cp "Medium"
  else cp "Low"

/-- Rank of a confidence label in the order Low < Medium < High < Very High. -/
def confRank (label : List Nat) : Nat :=
  if label = cp "Low" then 0
  else if label = cp "Medium" then 1
  else if label = cp "High" then 2
  else if label = cp "Very High" then 3
  else 0

/-!
### The date and measurement regular expressions (src/chatbot.py, lines 198-206)

re.findall scans left to right: at each position it attempts a leftmost match and,
on success, appends the matched slice and resumes right after it.  The two patterns
are embedded directly.  Greedy pieces whose follower starts with a different
character class (\d+ before \s*/\., \s+ before a letter) are modelled by their
maximal runs, since regex backtracking into them cannot produce a match that the
maximal run misses; ordered alternations are tried in pattern order.
-/

/-- Month names of the date pattern, in alternation order. -/
def monthNames : List (List Nat) :=
  [cp "January", cp "February", cp "March", cp "April", cp "May", cp "June", cp "July",
   cp "August", cp "September", cp "October", cp "November", cp "December"]

/-- First alternative of the date pattern with exactly n day digits:
\d{n}\s+(January|...|December) followed by the closing \b; returns the end position. -/
def dateAlt1At (s : List Nat) (p n : Nat) : Option Nat :=
  let r := s.drop p
  if n ≤ digitRun r then
    let k := wsRun (r.drop n)
    if k = 0 then none
    else
      monthNames.findSome? fun m =>
        if m.isPrefixOf ((r.drop n).drop k) ∧ wordBoundaryAt s (p + n + k + m.length) then
          some (p + n + k + m.length)
        else none
  else none

/-- First alternative of the date pattern: \d{1,2} is greedy, two digits are tried
before one. -/
def dateAlt1 (s : List Nat) (p : Nat) : Option Nat :=
  match dateAlt1At s p 2 with
  | some e => some e
  | none => dateAlt1At s p 1

/-- Second alternative of the date pattern: (19|20)\d{2} followed by the closing \b. -/
def dateAlt2 (s : List Nat) (p : Nat) : Option Nat :=
  let r := s.drop p
  if ((cp "19").isPrefixOf r ∨ (cp "20").isPrefixOf r) ∧ 2 ≤ digitRun (r.drop 2) ∧
      wordBoundaryAt s (p + 4) then
    some (p + 4)
  else none

/-- Match of the whole date pattern at position p (requires the opening \b);
the day-month alternative is tried before the year alternative. -/
def dateMatchAt (s : List Nat) (p : Nat) : Option Nat :=
  if wordBoundaryAt s p then
    match dateAlt1 s p with
    | some e => some e
    | none => dateAlt2 s p
  else none

/-- The re.findall scan for the date pattern: fuel bounds the position walk. -/
def dateScan (s : List Nat) : Nat → Nat → List (List Nat)
  | 0, _ => []
  | fuel + 1, p =>
    if p < s.length then
      match dateMatchAt s p with
      | some e => ((s.drop p).take (e - p)) :: dateScan s fuel e
      | none => dateScan s fuel (p + 1)
    else []

/-- WikipediaResearcher._extract_dates (src/chatbot.py, lines 203-206). -/
def extract_dates (text : List Nat) : List (List Nat) :=
  dateScan text (text.length + 1) 0

/-!
## src/chatboy.py — clean_query, unwanted-topic filter, scorer
-/

/-- UNWANTED_KEYWORDS (src/chatboy.py, lines 6-10). -/
def UNWANTED_KEYWORDS : List (List Nat) :=
  [cp "emoji", cp "software", cp "video game", cp "song", cp "album", cp "character",
   cp "film", cp "television", cp "TV series", cp "manga", cp "anime", cp "fictional",
   cp "game", cp "painting", cp "artwork", cp "novel", cp "book", cp "movie"]

/-- The unwanted-topic test of src/chatboy.py, line 66:
any(word.lower() in result.lower() for word in UNWANTED_KEYWORDS). -/
def is_unwanted (title : List Nat) : Bool :=
  UNWANTED_KEYWORDS.any fun w => hasSub (lowerCps title) (lowerCps w)

/-!
### clean_query (src/chatboy.py, lines 12-24)

Branch 1 is re.match applied to the pattern what\s+is\s+(?:a|an|the)?\s*(.+).
The optional article group tries the alternatives a, an, the and then the empty
alternative, in that order; \s*(.+) backtracks over the whitespace count, from the
maximal run downwards, until the remainder starts with at least one character that
the dot can match (any code point except a newline); the captured group is the
maximal dot-run from there.  The two \s+ pieces are modelled by their maximal runs:
"is" and the article alternatives start with non-whitespace characters, and since
clean_query strips its input first the text after "is" always holds a non-whitespace
character, so backtracking into \s+ cannot change the outcome.
-/

/-- The tail \s*(.+) of the what-is pattern at remainder r, trying the whitespace
count m, then m-1, ..., 0; returns the captured group. -/
def dotPlusFrom (r : List Nat) : Nat → Option (List Nat)
  | 0 =>
    if r ≠ [] ∧ r.head? ≠ some 10 then some (r.takeWhile fun c => c != 10) else none
  | m + 1 =>
    let rest := r.drop (m + 1)
    if rest ≠ [] ∧ rest.head? ≠ some 10 then some (rest.takeWhile fun c => c != 10)
    else dotPlusFrom r m

/-- The tail \s*(.+) at remainder r, starting from the maximal whitespace run. -/
def dotPlus (r : List Nat) : Option (List Nat) := dotPlusFrom r (wsRun r)

/-- One article alternative: the literal w followed by \s*(.+). -/
def artCand (w r : List Nat) : Option (List Nat) :=
  if w.isPrefixOf r then dotPlus (r.drop w.length) else none

/-- (?:a|an|the)?\s*(.+): the article alternatives in pattern order, then the empty
alternative. -/
def articleTail (r : List Nat) : Option (List Nat) :=
  match artCand (cp "a") r with
  | some g => some g
  | none =>
    match artCand (cp "an") r with
    | some g => some g
    | none =>
      match artCand (cp "the") r with
      | some g => some g
      | none => dotPlus r

/-- re.match of what\s+is\s+(?:a|an|the)?\s*(.+) against s; returns group(1). -/
def whatIsGroup (s : List Nat) : Option (List Nat) :=
  if (cp "what").isPrefixOf s then
    let r1 := s.drop 4
    let k1 := wsRun r1
    if k1 = 0 then none
    else
      let r2 := r1.drop k1
      if (cp "is").isPrefixOf r2 then
        let r3 := r2.drop 2
        let k2 := wsRun r3
        if k2 = 0 then none else articleTail (r3.drop k2)
      else none
  else none

/-- The stopword alternatives of the second branch of clean_query, in pattern order:
(what|who|where|when|how|is|are|was|were|a|an|the). -/
def stopwords : List (List Nat) :=
  [cp "what", cp "who", cp "where", cp "when", cp "how", cp "is", cp "are", cp "was",
   cp "were", cp "a", cp "an", cp "the"]

/-- Length of the leftmost stopword match at position p of s, if any: \b, then the
first alternative that matches literally and is followed by \b. -/
def stopMatchLen (s : List Nat) (p : Nat) : Option Nat :=
  if wordBoundaryAt s p then
    stopwords.findSome? fun w =>
      if w.isPrefixOf (s.drop p) ∧ wordBoundaryAt s (p + w.length) then some w.length
      else none
  else none

/-- The re.sub scan replacing stopword matches by the empty string: characters at
unmatched positions are kept, matched slices are skipped; fuel bounds the walk. -/
def subStopAux (s : List Nat) : Nat → Nat → List Nat
  | 0, _ => []
  | fuel + 1, p =>
    match s.get? p with
    | none => []
    | some c =>
      match stopMatchLen s p with
      | some len => subStopAux s fuel (p + len)
      | none => c :: subStopAux s fuel (p + 1)

/-- re.sub(r"\b(what|who|where|when|how|is|are|was|were|a|an|the)\b", "", s). -/
def subStopwords (s : List Nat) : List Nat := subStopAux s (s.length + 1) 0

/-- clean_query (src/chatboy.py, lines 12-24).  Note that the what-is branch returns
group(1).strip() directly, before the punctuation-stripping and whitespace-collapsing
steps of the second branch. -/
def clean_query (query : List Nat) : List Nat :=
  let original := stripCps (lowerCps query)
  match whatIsGroup original with
  | some g => stripCps g
  | none =>
    let q1 := subStopwords original
    let q2 := q1.filter fun c => isWordCp c || isSpaceCp c
    joinWords (splitWords q2)

/-- ASCII model of the cased-character test used by str.istitle / str.isupper. -/
def isUpperCp (c : Nat) : Bool := decide (65 ≤ c ∧ c ≤ 90)

/-- ASCII lowercase letter. -/
def isLowerCp (c : Nat) : Bool := decide (97 ≤ c ∧ c ≤ 122)

/-- ASCII cased character. -/
def isCasedCp (c : Nat) : Bool := isUpperCp c || isLowerCp c

/-- Scan of str.istitle: uppercase letters may only follow uncased characters,
lowercase letters may only follow cased characters. -/
def istitleAux : List Nat → Bool → Bool
  | [], _ => true
  | c :: rest, prevCased =>
    if isUpperCp c then !prevCased && istitleAux rest true
    else if isLowerCp c then prevCased && istitleAux rest true
    else istitleAux rest false

/-- Python str.istitle (ASCII): titlecased and containing at least one cased character. -/
def istitleCps (l : List Nat) : Bool := istitleAux l false && l.any isCasedCp

/-- Python str.isupper (ASCII): no lowercase letter and at least one cased character. -/
def isupperCps (l : List Nat) : Bool := !(l.any isLowerCp) && l.any isCasedCp

/-- The specific_indicators list of is_specific_article (src/chatboy.py, lines 28-32). -/
def specificIndicators : List (List Nat) :=
  [cp "is a", cp "was a", cp "refers to", cp "born", cp "died", cp "located in",
   cp "written by", cp "directed by", cp "created by"]

/-- is_specific_article (src/chatboy.py, lines 26-38): when the title is titlecased
and not all-caps, test whether the first sentence of the summary (text before the
first period, lowercased) contains one of the indicators. -/
def is_specific_article (title summary : List Nat) : Bool :=
  if istitleCps title && !(isupperCps title) then
    specificIndicators.any fun ind =>
      hasSub (lowerCps (summary.takeWhile fun c => c != 46)) ind
  else false

/-- calculate_relevance (src/chatboy.py, lines 116-126): the similarity ratio of the
lowered query and text, +0.2 when the query occurs in the first sentence of the text;
no upper clamp. -/
def calculate_relevance (query text : List Nat) : ℚ :=
  let base : ℚ := ratioQ (lowerCps query) (lowerCps text)
  if hasSub (lowerCps (text.takeWhile fun c => c != 46)) (lowerCps query) then base + 2/10
  else base

/-- The candidate loop of get_wikipedia_summary (src/chatboy.py, lines 63-89), with
the summary backend as an explicit function (none models a DisambiguationError or
PageError, which the loop skips).  Returns the scored_results list together with the
titles for which a summary fetch was issued, in loop order. -/
def scoreLoop (fetchSummary : List Nat → Option (List Nat))
    (originalQuery cleanedQuery : List Nat) :
    List (List Nat) → List (List Nat × ℚ × List Nat) × List (List Nat)
  | [] => ([], [])
  | r :: rest =>
    if is_unwanted r then scoreLoop fetchSummary originalQuery cleanedQuery rest
    else
      match fetchSummary r with
      | none =>
        let t := scoreLoop fetchSummary originalQuery cleanedQuery rest
        (t.1, r :: t.2)
      | some summary =>
        let t := scoreLoop fetchSummary originalQuery cleanedQuery rest
        if hasSub (lowerCps originalQuery) (cp "what is") && is_specific_article r summary then
          (t.1, r :: t.2)
        else
          let sc0 : ℚ := calculate_relevance cleanedQuery summary
          let sc1 : ℚ :=
            if hasSub (lowerCps summary) (cleanedQuery ++ cp " is") then sc0 + 3/10 else sc0
          let sc2 : ℚ := if !(is_specific_article r summary) then sc1 + 2/10 else sc1
          ((r, sc2, summary) :: t.1, r :: t.2)

/-- The DisambiguationError handler of get_wikipedia_summary (src/chatboy.py,
lines 109-110): "Please be more specific. Did you mean:\n- " + "\n- ".join(options[:3]). -/
def joinWith (sep : List Nat) : List (List Nat) → List Nat
  | [] => []
  | [x] => x
  | x :: xs => x ++ sep ++ joinWith sep xs

/-- The text returned by src/chatboy.py for an ambiguous title. -/
def disambiguationResponse (options : List (List Nat)) : List Nat :=
  cp "Please be more specific. Did you mean:\n- " ++ joinWith (cp "\n- ") (options.take 3)

/-!
## The measurement pattern (src/chatbot.py, lines 198-201)

\b\d+(?:\.\d+)?\s*(unit alternation)\b with re.IGNORECASE: matching is performed on
the lowered text (the unit literals are already lowercase), while findall returns
slices of the original text at the matched positions.
-/

/-- The unit alternation, expanded in pattern order with greedy optional plurals:
meters? miles? pounds? tons? try the form with the final s first. -/
def unitLits : List (List Nat) :=
  [cp "meters", cp "meter", cp "km", cp "miles", cp "mile", cp "feet", cp "inches",
   cp "kg", cp "pounds", cp "pound", cp "tons", cp "ton", cp "celsius", cp "fahrenheit"]

/-- Length of the maximal word-character prefix of l (greedy \w+). -/
def wordRun (l : List Nat) : Nat := (l.takeWhile isWordCp).length

/-- Unit match at position q of the lowered text ls: a unit literal followed by \b,
or square\s+\w+ (whose trailing \b always holds after a maximal \w+ run).
Returns the end position. -/
def unitAltEnd (ls : List Nat) (q : Nat) : Option Nat :=
  match unitLits.findSome? fun u =>
      if u.isPrefixOf (ls.drop q) ∧ wordBoundaryAt ls (q + u.length) then some (q + u.length)
      else none with
  | some e => some e
  | none =>
    if (cp "square").isPrefixOf (ls.drop q) then
      let k := wsRun (ls.drop (q + 6))
      let w := wordRun (ls.drop (q + 6 + k))
      if 1 ≤ k ∧ 1 ≤ w then some (q + 6 + k + w) else none
    else none

/-- \s* then the unit alternation, at position q of ls. -/
def unitAt (ls : List Nat) (q : Nat) : Option Nat := unitAltEnd ls (q + wsRun (ls.drop q))

/-- Match of the measurement pattern at position p of the lowered text ls: \b, a
maximal digit run, a greedy optional decimal part (tried with the decimal part first,
then without), \s*, a unit.  Backtracking to a shorter digit run cannot help, because
the following piece would then have to start at a digit. -/
def measMatchAt (ls : List Nat) (p : Nat) : Option Nat :=
  if wordBoundaryAt ls p then
    let d := digitRun (ls.drop p)
    if d = 0 then none
    else
      let p1 := p + d
      let dec := digitRun (ls.drop (p1 + 1))
      if ls.get? p1 = some 46 ∧ 1 ≤ dec then
        match unitAt ls (p1 + 1 + dec) with
        | some e => some e
        | none => unitAt ls p1
      else unitAt ls p1
  else none

/-- The re.findall scan for the measurement pattern over the lowered text ls,
returning slices of the original text s. -/
def measScan (s ls : List Nat) : Nat → Nat → List (List Nat)
  | 0, _ => []
  | fuel + 1, p =>
    if p < ls.length then
      match measMatchAt ls p with
      | some e => ((s.drop p).take (e - p)) :: measScan s ls fuel e
      | none => measScan s ls fuel (p + 1)
    else []

/-- WikipediaResearcher._extract_measurements (src/chatbot.py, lines 198-201). -/
def extract_measurements (text : List Nat) : List (List Nat) :=
  measScan text (lowerCps text) (text.length + 1) 0

/-!
## The WikipediaResearcher resolver (src/chatbot.py, lines 101-260)
-/

/-- The result dict of the resolver: title, summary, confidence, source_url. -/
structure Answer where
  title : List Nat
  summary : List Nat
  confidence : List Nat
  source_url : Option (List Nat)
deriving DecidableEq

/-- The query_info dict built by QueryAnalyzer.analyze_query (src/chatbot.py,
lines 68-87). -/
structure QueryInfo where
  original_query : List Nat
  corrected_query : List Nat
  query_type : List Nat
  is_measurement : Bool
  is_time : Bool
  needs_verification : Bool
deriving DecidableEq

/-- Python exceptions relevant to the resolver. -/
inductive PyExc where
  | disambiguationError (options : List (List Nat))
  | pageError
  | attributeError
  | otherError (msg : List Nat)
deriving DecidableEq

/-- One turn of the wikipedia backend: the outcome of wikipedia.search on the
corrected query, and the per-title outcomes of wikipedia.page and wikipedia.summary
(none models an exception, which every candidate loop catches and skips). -/
structure Backend where
  searchResults : Except PyExc (List (List Nat))
  fetchPage : List Nat → Option Page
  fetchSummary : List Nat → Option (List Nat)

/-- WikipediaResearcher._format_error (src/chatbot.py, lines 253-260). -/
def formatError (message : List Nat) : Answer :=
  { title := cp "Error", summary := message, confidence := cp "None", source_url := none }

/-- WikipediaResearcher._format_measurement_response (src/chatbot.py, lines 241-245). -/
def formatMeasurementResponse (measurements : List (List Nat)) : List Nat :=
  if measurements.isEmpty then cp "No specific measurements found."
  else cp "Found measurements: " ++ joinWith (cp ", ") measurements

/-- WikipediaResearcher._format_date_response (src/chatbot.py, lines 247-251). -/
def formatDateResponse (dates : List (List Nat)) : List Nat :=
  if dates.isEmpty then cp "No specific dates found."
  else cp "Found dates: " ++ joinWith (cp ", ") dates

/-- The candidate loop of _handle_general_query (src/chatbot.py, lines 168-196):
best_score starts at 0, best_result at None; a candidate replaces the best exactly
when its score is strictly greater; candidates whose page or summary fetch raises
are skipped. -/
def glLoop (bk : Backend) (qi : QueryInfo) :
    List (List Nat) → ℚ → Option Answer → Option Answer
  | [], _, best => best
  | r :: rest, bestScore, best =>
    match bk.fetchPage r, bk.fetchSummary r with
    | some page, some summary =>
      let sc0 : ℚ := calcRelevance qi.corrected_query page.title summary
      let sc : ℚ := if qi.needs_verification then verifyInformation sc0 page else sc0
      if bestScore < sc then
        glLoop bk qi rest sc (some
          { title := page.title, summary := summary,
            confidence := getConfidenceLevel sc, source_url := some page.url })
      else glLoop bk qi rest bestScore best
    | _, _ => glLoop bk qi rest bestScore best

/-- WikipediaResearcher._handle_general_query (src/chatbot.py, lines 168-196). -/
def handleGeneralQuery (bk : Backend) (results : List (List Nat)) (qi : QueryInfo) : Answer :=
  match glLoop bk qi results 0 none with
  | some a => a
  | none => formatError (cp "Could not find relevant information")

/-- The candidate loop of _handle_measurement_query (src/chatbot.py, lines 128-146):
the first candidate whose first 2000 content characters yield a measurement wins
immediately; with no hit the loop falls through to _handle_general_query on the
original results list. -/
def hmqLoop (bk : Backend) (qi : QueryInfo) (original : List (List Nat)) :
    List (List Nat) → Answer
  | [] => handleGeneralQuery bk original qi
  | r :: rest =>
    match bk.fetchPage r with
    | none => hmqLoop bk qi original rest
    | some page =>
      let ms := extract_measurements (page.content.take 2000)
      if ms.isEmpty then hmqLoop bk qi original rest
      else
        { title := page.title, summary := formatMeasurementResponse ms,
          confidence := if 1 < ms.length then cp "High" else cp "Medium",
          source_url := some page.url }

/-- WikipediaResearcher._handle_measurement_query (src/chatbot.py, lines 128-146). -/
def handleMeasurementQuery (bk : Backend) (results : List (List Nat)) (qi : QueryInfo) :
    Answer :=
  hmqLoop bk qi results results

/-- The candidate loop of _handle_time_query (src/chatbot.py, lines 148-166). -/
def htqLoop (bk : Backend) (qi : QueryInfo) (original : List (List Nat)) :
    List (List Nat) → Answer
  | [] => handleGeneralQuery bk original qi
  | r :: rest =>
    match bk.fetchPage r with
    | none => htqLoop bk qi original rest
    | some page =>
      let ds := extract_dates (page.content.take 2000)
      if ds.isEmpty then htqLoop bk qi original rest
      else
        { title := page.title, summary := formatDateResponse ds,
          confidence := if 1 < ds.length then cp "High" else cp "Medium",
          source_url := some page.url }

/-- WikipediaResearcher._handle_time_query (src/chatbot.py, lines 148-166). -/
def handleTimeQuery (bk : Backend) (results : List (List Nat)) (qi : QueryInfo) : Answer :=
  htqLoop bk qi results results

/-- Message text of an exception (str(e)); its exact wording is irrelevant to the
claims, only the otherError case carries through the raw message. -/
def excText : PyExc → List Nat
  | .disambiguationError _ => cp "DisambiguationError"
  | .pageError => cp "PageError"
  | .attributeError => cp "AttributeError"
  | .otherError m => m

/-- WikipediaResearcher.search (src/chatbot.py, lines 107-126).  The except clause
for DisambiguationError executes `return self._handle_disambiguation(e.options)`, but
WikipediaResearcher defines no method or attribute named _handle_disambiguation
anywhere in src/chatbot.py, so the attribute lookup itself raises AttributeError
inside the handler; the sibling `except Exception` clause of the same try statement
does not catch an exception raised by another handler, so the AttributeError escapes
search.  The embedding therefore returns that exception in the disambiguation case. -/
def wrSearch (bk : Backend) (qi : QueryInfo) : Except PyExc Answer :=
  match bk.searchResults with
  | .ok results =>
    if results.isEmpty then .ok (formatError (cp "No results found"))
    else if qi.is_measurement then .ok (handleMeasurementQuery bk results qi)
    else if qi.is_time then .ok (handleTimeQuery bk results qi)
    else .ok (handleGeneralQuery bk results qi)
  | .error (.disambiguationError _) => .error .attributeError
  | .error e => .ok (formatError (excText e))

/-- The response formatting of WikiBot.get_response (src/chatbot.py, lines 276-288). -/
def formatResponse (a : Answer) : List Nat :=
  if a.title = cp "Error" then a.summary
  else
    cp "Topic: " ++ a.title ++ cp "\nConfidence: " ++ a.confidence ++ cp "\n\n" ++ a.summary ++
      (match a.source_url with
       | some u => cp "\n\nSource: " ++ u
       | none => [])

/-- WikiBot.get_response (src/chatbot.py, lines 269-288): neither get_response nor
the main read loop guards the call with a try, so an exception escaping search
propagates and terminates the process; the embedding surfaces it as an error value. -/
def getResponse (bk : Backend) (qi : QueryInfo) : Except PyExc (List Nat) :=
  match wrSearch bk qi with
  | .error e => .error e
  | .ok a => .ok (formatResponse a)

/-!
## Bounds of the SequenceMatcher embedding

The matching blocks are pairwise disjoint in each sequence, so their total size is
at most the length of either sequence; hence the ratio lies in [0, 1].
-/

theorem natRange_mem : ∀ (n s m : Nat), m ∈ natRange s n → s ≤ m ∧ m < s + n := by
  intro n
  induction n with
  | zero => intro s m h; simp [natRange] at h
  | succ n ih =>
    intro s m h
    simp only [natRange, List.mem_cons] at h
    rcases h with h | h
    · omega
    · have := ih (s + 1) m h
      omega

theorem runLen_bound (a b : List Nat) (alo blo bhi : Nat) :
    ∀ i j, alo ≤ i → blo ≤ j →
      runLen a b alo blo bhi i j + alo ≤ i + 1 ∧ runLen a b alo blo bhi i j + blo ≤ j + 1 := by
  intro i
  induction i with
  | zero =>
    intro j h1 h2
    simp only [runLen]
    omega
  | succ i ih =>
    intro j h1 h2
    simp only [runLen]
    split_ifs with h
    · obtain ⟨ha, hj, hdp⟩ := h
      have hb : blo ≤ j - 1 := hdp.1
      have := ih (j - 1) ha hb
      omega
    · omega

/-- Validity of a match triple with respect to the windows. -/
def flmValid (alo ahi blo bhi : Nat) (t : Nat × Nat × Nat) : Prop :=
  alo ≤ t.1 ∧ t.1 + t.2.2 ≤ ahi ∧ blo ≤ t.2.1 ∧ t.2.1 + t.2.2 ≤ bhi

theorem flmScan_valid (a b : List Nat) (alo ahi blo bhi : Nat) :
    ∀ ps best, flmValid alo ahi blo bhi best →
      (∀ pr ∈ ps, alo ≤ pr.1 ∧ pr.1 < ahi ∧ blo ≤ pr.2 ∧ pr.2 < bhi) →
      flmValid alo ahi blo bhi (flmScan a b alo blo bhi ps best) := by
  intro ps
  induction ps with
  | nil => intro best hb _; simpa [flmScan] using hb
  | cons pr rest ih =>
    intro best hb hps
    obtain ⟨i, j⟩ := pr
    obtain ⟨bi, bj, bk⟩ := best
    have hpr := hps (i, j) (by simp)
    simp only [flmScan]
    split_ifs with h
    · apply ih
      · have hr := runLen_bound a b alo blo bhi i j hpr.1 hpr.2.2.1
        unfold flmValid
        simp only
        omega
      · intro q hq; exact hps q (by simp [hq])
    · exact ih (bi, bj, bk) hb (fun q hq => hps q (by simp [hq]))

theorem extendLeft_valid (a b : List Nat) (alo ahi blo bhi : Nat) :
    ∀ i j k, alo ≤ i → i + k ≤ ahi → blo ≤ j → j + k ≤ bhi →
      flmValid alo ahi blo bhi (extendLeft a b alo blo i j k) := by
  intro i
  induction i with
  | zero =>
    intro j k h1 h2 h3 h4
    simp only [extendLeft]
    exact ⟨h1, h2, h3, h4⟩
  | succ i ih =>
    intro j k h1 h2 h3 h4
    simp only [extendLeft]
    split_ifs with h
    · exact ih (j - 1) (k + 1) (by omega) (by omega) (by omega) (by omega)
    · exact ⟨h1, h2, h3, h4⟩

theorem extendRight_le (a b : List Nat) (ahi bhi i j : Nat) :
    ∀ fuel k, i + k ≤ ahi → j + k ≤ bhi →
      i + extendRight a b ahi bhi i j fuel k ≤ ahi ∧
      j + extendRight a b ahi bhi i j fuel k ≤ bhi := by
  intro fuel
  induction fuel with
  | zero => intro k h1 h2; simp only [extendRight]; omega
  | succ fuel ih =>
    intro k h1 h2
    simp only [extendRight]
    split_ifs with h
    · exact ih (k + 1) (by omega) (by omega)
    · omega

theorem findLongestMatch_valid (a b : List Nat) (alo ahi blo bhi : Nat)
    (h1 : alo ≤ ahi) (h2 : blo ≤ bhi) :
    flmValid alo ahi blo bhi (findLongestMatch a b alo ahi blo bhi) := by
  have hpairs : ∀ pr ∈ dpPairs a b alo ahi blo bhi,
      alo ≤ pr.1 ∧ pr.1 < ahi ∧ blo ≤ pr.2 ∧ pr.2 < bhi := by
    intro pr hpr
    simp only [dpPairs, List.mem_flatMap, List.mem_map, List.mem_filter] at hpr
    obtain ⟨i, hi, j, ⟨hj, _⟩, rfl⟩ := hpr
    have hi2 := natRange_mem _ _ _ hi
    have hj2 := natRange_mem _ _ _ hj
    constructor
    · exact hi2.1
    constructor
    · omega
    constructor
    · exact hj2.1
    · omega
  have hdp : flmValid alo ahi blo bhi
      (flmScan a b alo blo bhi (dpPairs a b alo ahi blo bhi) (alo, blo, 0)) := by
    apply flmScan_valid
    · exact ⟨le_refl _, by simpa using h1, le_refl _, by simpa using h2⟩
    · exact hpairs
  set dp := flmScan a b alo blo bhi (dpPairs a b alo ahi blo bhi) (alo, blo, 0) with hdpdef
  have hel : flmValid alo ahi blo bhi (extendLeft a b alo blo dp.1 dp.2.1 dp.2.2) :=
    extendLeft_valid a b alo ahi blo bhi dp.1 dp.2.1 dp.2.2 hdp.1 hdp.2.1 hdp.2.2.1 hdp.2.2.2
  set el := extendLeft a b alo blo dp.1 dp.2.1 dp.2.2 with heldef
  have her := extendRight_le a b ahi bhi el.1 el.2.1 ahi el.2.2 hel.2.1 hel.2.2.2
  show flmValid alo ahi blo bhi (el.1, el.2.1, extendRight a b ahi bhi el.1 el.2.1 ahi el.2.2)
  exact ⟨hel.1, her.1, hel.2.2.1, her.2⟩

theorem matchSumF_le (a b : List Nat) :
    ∀ fuel alo ahi blo bhi, alo ≤ ahi → blo ≤ bhi →
      matchSumF a b fuel alo ahi blo bhi ≤ ahi - alo ∧
      matchSumF a b fuel alo ahi blo bhi ≤ bhi - blo := by
  intro fuel
  induction fuel with
  | zero => intro alo ahi blo bhi h1 h2; simp [matchSumF]
  | succ fuel ih =>
    intro alo ahi blo bhi h1 h2
    have hv := findLongestMatch_valid a b alo ahi blo bhi h1 h2
    simp only [matchSumF]
    set t := findLongestMatch a b alo ahi blo bhi with ht
    obtain ⟨hv1, hv2, hv3, hv4⟩ := hv
    split_ifs with hk hL hR hR
    · omega
    · have hLb := ih alo t.1 blo t.2.1 (by omega) (by omega)
      have hRb := ih (t.1 + t.2.2) ahi (t.2.1 + t.2.2) bhi (by omega) (by omega)
      omega
    · have hLb := ih alo t.1 blo t.2.1 (by omega) (by omega)
      omega
    · have hRb := ih (t.1 + t.2.2) ahi (t.2.1 + t.2.2) bhi (by omega) (by omega)
      omega
    · omega

theorem matchSumTop_le (a b : List Nat) :
    matchSumTop a b ≤ a.length ∧ matchSumTop a b ≤ b.length := by
  have := matchSumF_le a b (a.length + 1) 0 a.length 0 b.length (Nat.zero_le _) (Nat.zero_le _)
  simpa [matchSumTop] using this

theorem ratioQ_nonneg (a b : List Nat) : 0 ≤ ratioQ a b := by
  unfold ratioQ
  split_ifs with h
  · norm_num
  · apply div_nonneg
    · positivity
    · positivity

theorem ratioQ_le_one (a b : List Nat) : ratioQ a b ≤ 1 := by
  unfold ratioQ
  split_ifs with h
  · exact le_refl 1
  · have hpos : (0 : ℚ) < (a.length : ℚ) + (b.length : ℚ) := by
      have : 0 < a.length + b.length := Nat.pos_of_ne_zero h
      exact_mod_cast this
    rw [div_le_one hpos]
    have hm := matchSumTop_le a b
    have hn : 2 * matchSumTop a b ≤ a.length + b.length := by omega
    exact_mod_cast hn

/-!
## Bounds and properties of the two scorers
-/

theorem calcRelevance_nonneg (q t s : List Nat) : 0 ≤ calcRelevance q t s := by
  unfold calcRelevance
  have h1 := ratioQ_nonneg (lowerCps q) (lowerCps t)
  have h2 := ratioQ_nonneg (lowerCps q) (lowerCps s)
  apply le_min _ (by norm_num)
  split_ifs <;> nlinarith

theorem calcRelevance_le_one (q t s : List Nat) : calcRelevance q t s ≤ 1 := by
  unfold calcRelevance
  exact min_le_right _ _

theorem verifyInformation_nonneg (baseScore : ℚ) (p : Page) (h : 0 ≤ baseScore) :
    0 ≤ verifyInformation baseScore p := by
  unfold verifyInformation
  apply le_min _ (by norm_num)
  split_ifs <;> linarith

theorem verifyInformation_le_one (baseScore : ℚ) (p : Page) :
    verifyInformation baseScore p ≤ 1 := by
  unfold verifyInformation
  exact min_le_right _ _

theorem calculate_relevance_nonneg (q x : List Nat) : 0 ≤ calculate_relevance q x := by
  unfold calculate_relevance
  have h := ratioQ_nonneg (lowerCps q) (lowerCps x)
  split_ifs <;> linarith

theorem calculate_relevance_le (q x : List Nat) : calculate_relevance q x ≤ 12/10 := by
  unfold calculate_relevance
  have h := ratioQ_le_one (lowerCps q) (lowerCps x)
  split_ifs <;> linarith

theorem isPrefixOf_self (l : List Nat) : l.isPrefixOf l = true := by
  induction l with
  | nil => rfl
  | cons c t ih => simp [List.isPrefixOf, ih]

/-- A list that ends in the needle contains the needle as a substring. -/
theorem hasSub_append_self (pre l : List Nat) : hasSub (pre ++ l) l = true := by
  induction pre with
  | nil =>
    cases l with
    | nil => rfl
    | cons c t => simp [hasSub, isPrefixOf_self]
  | cons c t ih => simp [hasSub, ih]

/-!
## Idempotence of correct_spelling
-/

theorem lowerChar_idem (c : Nat) : lowerChar (lowerChar c) = lowerChar c := by
  unfold lowerChar
  split_ifs <;> omega

theorem lowerChar_fixed_of_mem_lowerCps (l : List Nat) (c : Nat) (h : c ∈ lowerCps l) :
    lowerChar c = c := by
  simp only [lowerCps, List.mem_map] at h
  obtain ⟨d, _, rfl⟩ := h
  exact lowerChar_idem d

/-- Words produced by the splitting scan are nonempty, whitespace-free, and drawn
from the input and the accumulator. -/
theorem splitWAux_inv :
    ∀ (l acc : List Nat), (∀ c ∈ acc, isSpaceCp c = false) →
      ∀ w ∈ splitWAux l acc,
        w ≠ [] ∧ (∀ c ∈ w, isSpaceCp c = false) ∧ (∀ c ∈ w, c ∈ l ∨ c ∈ acc) := by
  intro l
  induction l with
  | nil =>
    intro acc hacc w hw
    simp only [splitWAux] at hw
    split_ifs at hw with h
    · simp at hw
    · simp only [List.mem_singleton] at hw
      subst hw
      refine ⟨by simpa using h, ?_, ?_⟩
      · intro c hc; exact hacc c (List.mem_reverse.mp hc)
      · intro c hc; exact Or.inr (List.mem_reverse.mp hc)
  | cons d t ih =>
    intro acc hacc w hw
    simp only [splitWAux] at hw
    split_ifs at hw with hsp hemp
    · have := ih [] (by simp) w hw
      exact ⟨this.1, this.2.1, fun c hc => by
        rcases this.2.2 c hc with h | h
        · exact Or.inl (List.mem_cons_of_mem d h)
        · simp at h⟩
    · rcases List.mem_cons.mp hw with rfl | hw2
      · refine ⟨by simpa using hemp, ?_, ?_⟩
        · intro c hc; exact hacc c (List.mem_reverse.mp hc)
        · intro c hc; exact Or.inr (List.mem_reverse.mp hc)
      · have := ih [] (by simp) w hw2
        exact ⟨this.1, this.2.1, fun c hc => by
          rcases this.2.2 c hc with h | h
          · exact Or.inl (List.mem_cons_of_mem d h)
          · simp at h⟩
    · have := ih (d :: acc) (by
        intro c hc
        rcases List.mem_cons.mp hc with rfl | hc2
        · simpa using hsp
        · exact hacc c hc2) w hw
      refine ⟨this.1, this.2.1, fun c hc => ?_⟩
      rcases this.2.2 c hc with h | h
      · exact Or.inl (List.mem_cons_of_mem d h)
      · rcases List.mem_cons.mp h with rfl | hc2
        · exact Or.inl (List.mem_cons_self _ _)
        · exact Or.inr hc2

theorem splitWords_inv (l : List Nat) :
    ∀ w ∈ splitWords l, w ≠ [] ∧ (∀ c ∈ w, isSpaceCp c = false) ∧ (∀ c ∈ w, c ∈ l) := by
  intro w hw
  have := splitWAux_inv l [] (by simp) w hw
  exact ⟨this.1, this.2.1, fun c hc => by
    rcases this.2.2 c hc with h | h
    · exact h
    · simp at h⟩

/-- Feeding a whitespace-free word through the scan moves it into the accumulator. -/
theorem splitWAux_word :
    ∀ (w r acc : List Nat), (∀ c ∈ w, isSpaceCp c = false) →
      splitWAux (w ++ r) acc = splitWAux r (w.reverse ++ acc) := by
  intro w
  induction w with
  | nil => intro r acc _; simp
  | cons c t ih =>
    intro r acc hw
    have hc : isSpaceCp c = false := hw c (List.mem_cons_self _ _)
    have h1 : splitWAux (c :: (t ++ r)) acc = splitWAux (t ++ r) (c :: acc) := by
      simp [splitWAux, hc]
    rw [List.cons_append, h1, ih r (c :: acc) (fun d hd => hw d (List.mem_cons_of_mem c hd))]
    congr 1
    rw [List.reverse_cons, List.append_assoc]
    rfl

/-- splitWords is a left inverse of joinWords on lists of nonempty,
whitespace-free words. -/
theorem splitW_join :
    ∀ ws : List (List Nat),
      (∀ w ∈ ws, w ≠ [] ∧ ∀ c ∈ w, isSpaceCp c = false) →
      splitWords (joinWords ws) = ws := by
  intro ws
  induction ws with
  | nil => intro _; rfl
  | cons w ws ih =>
    intro h
    have hw := h w (List.mem_cons_self _ _)
    cases ws with
    | nil =>
      show splitWAux (joinWords [w]) [] = [w]
      have : joinWords [w] = w ++ [] := by simp [joinWords]
      rw [this, splitWAux_word w [] [] hw.2]
      simp only [splitWAux, List.append_nil]
      rw [if_neg (by simpa using hw.1)]
      simp
    | cons w2 ws2 =>
      show splitWAux (joinWords (w :: w2 :: ws2)) [] = w :: w2 :: ws2
      have hj : joinWords (w :: w2 :: ws2) = w ++ 32 :: joinWords (w2 :: ws2) := rfl
      rw [hj, splitWAux_word w (32 :: joinWords (w2 :: ws2)) [] hw.2]
      simp only [splitWAux, List.append_nil]
      rw [if_pos (by rfl), if_neg (by simpa using hw.1)]
      rw [List.reverse_reverse]
      have := ih (fun v hv => h v (List.mem_cons_of_mem w hv))
      exact congrArg (w :: ·) this

/-- Every value of the corrections dict, together with the untouched-word case. -/
theorem correctWord_cases (w : List Nat) :
    correctWord w = w ∨ correctWord w = cp "what" ∨ correctWord w = cp "when" ∨
    correctWord w = cp "where" ∨ correctWord w = cp "why" ∨ correctWord w = cp "how" ∨
    correctWord w = cp "are" ∨ correctWord w = cp "you" ∨ correctWord w = cp "tell" ∨
    correctWord w = cp "about" ∨ correctWord w = cp "this" := by
  unfold correctWord
  by_cases h1 : w = cp "wat"
  · rw [if_pos h1]; exact Or.inr (Or.inl (by decide))
  rw [if_neg h1]
  by_cases h2 : w = cp "wut"
  · rw [if_pos h2]; exact Or.inr (Or.inl (by decide))
  rw [if_neg h2]
  by_cases h3 : w = cp "wht"
  · rw [if_pos h3]; exact Or.inr (Or.inl (by decide))
  rw [if_neg h3]
  by_cases h4 : w = cp "wen"
  · rw [if_pos h4]; exact Or.inr (Or.inr (Or.inl (by decide)))
  rw [if_neg h4]
  by_cases h5 : w = cp "wer"
  · rw [if_pos h5]; exact Or.inr (Or.inr (Or.inr (Or.inl (by decide))))
  rw [if_neg h5]
  by_cases h6 : w = cp "y"
  · rw [if_pos h6]; exact Or.inr (Or.inr (Or.inr (Or.inr (Or.inl (by decide)))))
  rw [if_neg h6]
  by_cases h7 : w = cp "hw"
  · rw [if_pos h7]; exact Or.inr (Or.inr (Or.inr (Or.inr (Or.inr (Or.inl (by decide))))))
  rw [if_neg h7]
  by_cases h8 : w = cp "r"
  · rw [if_pos h8]; exact Or.inr (Or.inr (Or.inr (Or.inr (Or.inr (Or.inr (Or.inl (by decide)))))))
  rw [if_neg h8]
  by_cases h9 : w = cp "u"
  · rw [if_pos h9]
    exact Or.inr (Or.inr (Or.inr (Or.inr (Or.inr (Or.inr (Or.inr (Or.inl (by decide))))))))
  rw [if_neg h9]
  by_cases h10 : w = cp "tel"
  · rw [if_pos h10]
    exact Or.inr (Or.inr (Or.inr (Or.inr (Or.inr (Or.inr (Or.inr (Or.inr (Or.inl (by decide)))))))))
  rw [if_neg h10]
  by_cases h11 : w = cp "abt"
  · rw [if_pos h11]
    exact Or.inr (Or.inr (Or.inr (Or.inr (Or.inr (Or.inr (Or.inr (Or.inr (Or.inr (Or.inl (by decide))))))))))
  rw [if_neg h11]
  by_cases h12 : w = cp "dis"
  · rw [if_pos h12]
    exact Or.inr (Or.inr (Or.inr (Or.inr (Or.inr (Or.inr (Or.inr (Or.inr (Or.inr (Or.inr (by decide))))))))))
  rw [if_neg h12]
  exact Or.inl rfl

/-- The corrections dict maps no value back to a key, so correcting twice is the
same as correcting once. -/
theorem correctWord_idem (w : List Nat) : correctWord (correctWord w) = correctWord w := by
  rcases correctWord_cases w with h | h | h | h | h | h | h | h | h | h | h
  · rw [h]; exact h
  all_goals (rw [h]; decide)

/-- correctWord preserves nonemptiness, whitespace-freeness and lowercase-fixedness. -/
theorem correctWord_props (w : List Nat) (hw : w ≠ [])
    (hs : ∀ c ∈ w, isSpaceCp c = false) (hl : ∀ c ∈ w, lowerChar c = c) :
    correctWord w ≠ [] ∧ (∀ c ∈ correctWord w, isSpaceCp c = false) ∧
      (∀ c ∈ correctWord w, lowerChar c = c) := by
  rcases correctWord_cases w with h | h | h | h | h | h | h | h | h | h | h <;> rw [h]
  · exact ⟨hw, hs, hl⟩
  all_goals exact ⟨by decide, by decide, by decide⟩

/-- Characters of a joined word list come from the words or are the separator. -/
theorem mem_joinWords :
    ∀ (ws : List (List Nat)) (c : Nat), c ∈ joinWords ws → (∃ w ∈ ws, c ∈ w) ∨ c = 32 := by
  intro ws
  induction ws with
  | nil => intro c h; simp [joinWords] at h
  | cons w ws ih =>
    intro c h
    cases ws with
    | nil =>
      simp only [joinWords] at h
      exact Or.inl ⟨w, List.mem_cons_self _ _, h⟩
    | cons w2 ws2 =>
      have hj : joinWords (w :: w2 :: ws2) = w ++ 32 :: joinWords (w2 :: ws2) := rfl
      rw [hj] at h
      rcases List.mem_append.mp h with h1 | h1
      · exact Or.inl ⟨w, List.mem_cons_self _ _, h1⟩
      · rcases List.mem_cons.mp h1 with rfl | h2
        · exact Or.inr rfl
        · rcases ih c h2 with ⟨v, hv, hcv⟩ | h3
          · exact Or.inl ⟨v, List.mem_cons_of_mem w hv, hcv⟩
          · exact Or.inr h3

theorem lowerCps_fixed (l : List Nat) (h : ∀ c ∈ l, lowerChar c = c) : lowerCps l = l := by
  unfold lowerCps
  calc l.map lowerChar = l.map id := List.map_congr_left h
  _ = l := List.map_id l

theorem correct_spelling_idem (x : List Nat) :
    correct_spelling (correct_spelling x) = correct_spelling x := by
  have hwords := splitWords_inv (lowerCps x)
  set ws := (splitWords (lowerCps x)).map correctWord with hws
  have h1 : ∀ w ∈ ws, w ≠ [] ∧ (∀ c ∈ w, isSpaceCp c = false) ∧ (∀ c ∈ w, lowerChar c = c) := by
    intro w hw
    rw [hws] at hw
    simp only [List.mem_map] at hw
    obtain ⟨w0, hw0, rfl⟩ := hw
    have hp := hwords w0 hw0
    exact correctWord_props w0 hp.1 hp.2.1
      (fun c hc => lowerChar_fixed_of_mem_lowerCps x c (hp.2.2 c hc))
  have h2 : lowerCps (joinWords ws) = joinWords ws := by
    apply lowerCps_fixed
    intro c hc
    rcases mem_joinWords ws c hc with ⟨w, hw, hcw⟩ | rfl
    · exact (h1 w hw).2.2 c hcw
    · rfl
  have h3 : splitWords (joinWords ws) = ws :=
    splitW_join ws (fun w hw => ⟨(h1 w hw).1, (h1 w hw).2.1⟩)
  have h4 : ws.map correctWord = ws := by
    rw [hws, List.map_map]
    exact List.map_congr_left (fun w _ => correctWord_idem w)
  show joinWords ((splitWords (lowerCps (correct_spelling x))).map correctWord) = correct_spelling x
  unfold correct_spelling
  rw [← hws, h2, h3, h4]

/-!
## Structure of the measurement path (C9)
-/

/-- A candidate is a measurement hit when its page fetch succeeds and the first 2000
content characters yield at least one measurement token. -/
def measHit (bk : Backend) (r : List Nat) : Bool :=
  match bk.fetchPage r with
  | some p => !(extract_measurements (p.content.take 2000)).isEmpty
  | none => false

theorem hmqLoop_spec (bk : Backend) (qi : QueryInfo) (original : List (List Nat)) :
    ∀ rem : List (List Nat),
      (rem.find? (measHit bk) = none →
        hmqLoop bk qi original rem = handleGeneralQuery bk original qi) ∧
      (∀ r, rem.find? (measHit bk) = some r →
        ∃ p, bk.fetchPage r = some p ∧
          hmqLoop bk qi original rem =
            { title := p.title,
              summary := formatMeasurementResponse (extract_measurements (p.content.take 2000)),
              confidence :=
                if 1 < (extract_measurements (p.content.take 2000)).length then cp "High"
                else cp "Medium",
              source_url := some p.url } ) := by
  intro rem
  induction rem with
  | nil =>
    constructor
    · intro _; rfl
    · intro r hr; simp at hr
  | cons x rest ih =>
    cases hfp : bk.fetchPage x with
    | none =>
      have hmh : measHit bk x = false := by simp [measHit, hfp]
      have hfind : (x :: rest).find? (measHit bk) = rest.find? (measHit bk) :=
        List.find?_cons_of_neg _ (by simp [hmh])
      have hloop : hmqLoop bk qi original (x :: rest) = hmqLoop bk qi original rest := by
        simp [hmqLoop, hfp]
      rw [hfind, hloop]
      exact ih
    | some p =>
      cases hem : (extract_measurements (p.content.take 2000)).isEmpty with
      | true =>
        have hmh : measHit bk x = false := by simp [measHit, hfp, hem]
        have hfind : (x :: rest).find? (measHit bk) = rest.find? (measHit bk) :=
          List.find?_cons_of_neg _ (by simp [hmh])
        have hloop : hmqLoop bk qi original (x :: rest) = hmqLoop bk qi original rest := by
          simp [hmqLoop, hfp, hem]
        rw [hfind, hloop]
        exact ih
      | false =>
        have hmh : measHit bk x = true := by simp [measHit, hfp, hem]
        have hfind : (x :: rest).find? (measHit bk) = some x :=
          List.find?_cons_of_pos _ hmh
        constructor
        · intro hnone; rw [hfind] at hnone; exact absurd hnone (by simp)
        · intro r hr
          rw [hfind] at hr
          obtain rfl : x = r := by simpa using hr
          refine ⟨p, hfp, ?_⟩
          simp [hmqLoop, hfp, hem]

/-!
## Structure of the general path (C10)
-/

/-- Evaluation of one candidate in the general loop: when both backend calls succeed,
the answer it would contribute together with its score. -/
def candidateEval (bk : Backend) (qi : QueryInfo) (r : List Nat) : Option (Answer × ℚ) :=
  match bk.fetchPage r, bk.fetchSummary r with
  | some page, some summary =>
    let sc0 : ℚ := calcRelevance qi.corrected_query page.title summary
    let sc : ℚ := if qi.needs_verification then verifyInformation sc0 page else sc0
    some ({ title := page.title, summary := summary,
            confidence := getConfidenceLevel sc, source_url := some page.url }, sc)
  | _, _ => none

/-- The successfully evaluated candidates, in search-result order. -/
def evalAnswers (bk : Backend) (qi : QueryInfo) (results : List (List Nat)) :
    List (Answer × ℚ) :=
  results.filterMap (candidateEval bk qi)

/-- The best-tracking fold of the general loop, over the evaluated candidates. -/
def selStep : List (Answer × ℚ) → ℚ → Option Answer → Option Answer
  | [], _, best => best
  | p :: rest, bestScore, best =>
    if bestScore < p.2 then selStep rest p.2 (some p.1)
    else selStep rest bestScore best

theorem glLoop_eq_selStep (bk : Backend) (qi : QueryInfo) :
    ∀ (rem : List (List Nat)) (bs : ℚ) (best : Option Answer),
      glLoop bk qi rem bs best = selStep (evalAnswers bk qi rem) bs best := by
  intro rem
  induction rem with
  | nil => intro bs best; rfl
  | cons r rest ih =>
    intro bs best
    cases hfp : bk.fetchPage r with
    | none =>
      have h1 : glLoop bk qi (r :: rest) bs best = glLoop bk qi rest bs best := by
        simp [glLoop, hfp]
      have h2 : evalAnswers bk qi (r :: rest) = evalAnswers bk qi rest := by
        simp [evalAnswers, List.filterMap_cons, candidateEval, hfp]
      rw [h1, h2, ih]
    | some page =>
      cases hfs : bk.fetchSummary r with
      | none =>
        have h1 : glLoop bk qi (r :: rest) bs best = glLoop bk qi rest bs best := by
          simp [glLoop, hfp, hfs]
        have h2 : evalAnswers bk qi (r :: rest) = evalAnswers bk qi rest := by
          simp [evalAnswers, List.filterMap_cons, candidateEval, hfp, hfs]
        rw [h1, h2, ih]
      | some summary =>
        have h2 : evalAnswers bk qi (r :: rest) =
            ({ title := page.title, summary := summary,
               confidence := getConfidenceLevel
                 (if qi.needs_verification then
                    verifyInformation (calcRelevance qi.corrected_query page.title summary) page
                  else calcRelevance qi.corrected_query page.title summary),
               source_url := some page.url },
              (if qi.needs_verification then
                 verifyInformation (calcRelevance qi.corrected_query page.title summary) page
               else calcRelevance qi.corrected_query page.title summary)) ::
              evalAnswers bk qi rest := by
          simp [evalAnswers, List.filterMap_cons, candidateEval, hfp, hfs]
        rw [h2]
        simp only [glLoop, hfp, hfs, selStep]
        split_ifs <;> exact ih _ _

/-- When no later candidate strictly beats the running best score, the fold keeps
the current best. -/
theorem selStep_all_le :
    ∀ (l : List (Answer × ℚ)) (bs : ℚ) (best : Option Answer),
      (∀ p ∈ l, p.2 ≤ bs) → selStep l bs best = best := by
  intro l
  induction l with
  | nil => intro bs best _; rfl
  | cons p rest ih =>
    intro bs best h
    have hp : p.2 ≤ bs := h p (List.mem_cons_self _ _)
    simp only [selStep]
    rw [if_neg (by exact not_lt.mpr hp)]
    exact ih bs best (fun q hq => h q (List.mem_cons_of_mem p hq))

/-- The fold selects the first entry that attains the maximum, whenever some entry
strictly beats the running best score. -/
theorem selStep_first_max :
    ∀ (l : List (Answer × ℚ)) (bs : ℚ) (best : Option Answer) (n : Nat) (h : n < l.length),
      bs < (l.get ⟨n, h⟩).2 →
      (∀ q ∈ l, q.2 ≤ (l.get ⟨n, h⟩).2) →
      (∀ m (hm : m < n), (l.get ⟨m, Nat.lt_trans hm h⟩).2 < (l.get ⟨n, h⟩).2) →
      selStep l bs best = some (l.get ⟨n, h⟩).1 := by
  intro l
  induction l with
  | nil => intro bs best n h; exact absurd h (by simp)
  | cons p rest ih =>
    intro bs best n h hbs hmax hfirst
    cases n with
    | zero =>
      simp only [List.get] at hbs hmax ⊢
      simp only [selStep]
      rw [if_pos hbs]
      exact selStep_all_le rest p.2 (some p.1)
        (fun q hq => hmax q (List.mem_cons_of_mem p hq))
    | succ m =>
      have hm : m < rest.length := Nat.lt_of_succ_lt_succ h
      have hget : (p :: rest).get ⟨m + 1, h⟩ = rest.get ⟨m, hm⟩ := rfl
      rw [hget] at hbs hmax hfirst ⊢
      have hp2 : p.2 < (rest.get ⟨m, hm⟩).2 := by
        have := hfirst 0 (Nat.succ_pos m)
        simpa using this
      simp only [selStep]
      split_ifs with hlt
      · exact ih p.2 (some p.1) m hm hp2
          (fun q hq => hmax q (List.mem_cons_of_mem p hq))
          (fun k hk => by
            have := hfirst (k + 1) (Nat.succ_lt_succ hk)
            simpa using this)
      · exact ih bs best m hm hbs
          (fun q hq => hmax q (List.mem_cons_of_mem p hq))
          (fun k hk => by
            have := hfirst (k + 1) (Nat.succ_lt_succ hk)
            simpa using this)

/-- Every evaluated score in the general path is nonnegative. -/
theorem evalAnswers_nonneg (bk : Backend) (qi : QueryInfo) (results : List (List Nat)) :
    ∀ p ∈ evalAnswers bk qi results, 0 ≤ p.2 := by
  intro p hp
  simp only [evalAnswers, List.mem_filterMap] at hp
  obtain ⟨r, _, hr⟩ := hp
  unfold candidateEval at hr
  cases hfp : bk.fetchPage r with
  | none => rw [hfp] at hr; simp at hr
  | some page =>
    cases hfs : bk.fetchSummary r with
    | none => rw [hfp, hfs] at hr; simp at hr
    | some summary =>
      rw [hfp, hfs] at hr
      simp only [Option.some.injEq] at hr
      have hbase := calcRelevance_nonneg qi.corrected_query page.title summary
      have hsc : (0 : ℚ) ≤
          (if qi.needs_verification then
            verifyInformation (calcRelevance qi.corrected_query page.title summary) page
           else calcRelevance qi.corrected_query page.title summary) := by
        split_ifs
        · exact verifyInformation_nonneg _ _ hbase
        · exact hbase
      rw [← hr]
      exact hsc

/-!
## The unwanted-topic filter never lets a denylisted title be fetched or scored (C6)
-/

theorem scoreLoop_unwanted (fs : List Nat → Option (List Nat)) (oq cq : List Nat) :
    ∀ (results : List (List Nat)) (t : List Nat), is_unwanted t = true →
      t ∉ (scoreLoop fs oq cq results).2 ∧
      (∀ sc sm, (t, sc, sm) ∉ (scoreLoop fs oq cq results).1) := by
  intro results
  induction results with
  | nil => intro t _; simp [scoreLoop]
  | cons r rest ih =>
    intro t ht
    have hne : t ≠ r ∨ is_unwanted r = true := by
      by_cases h : t = r
      · subst h; exact Or.inr ht
      · exact Or.inl h
    cases hu : is_unwanted r with
    | true =>
      have hloop : scoreLoop fs oq cq (r :: rest) = scoreLoop fs oq cq rest := by
        simp [scoreLoop, hu]
      rw [hloop]
      exact ih t ht
    | false =>
      have htr : t ≠ r := by
        intro heq; rw [heq, hu] at ht; exact absurd ht (by simp)
      cases hfs : fs r with
      | none =>
        have hloop : scoreLoop fs oq cq (r :: rest) =
            ((scoreLoop fs oq cq rest).1, r :: (scoreLoop fs oq cq rest).2) := by
          simp [scoreLoop, hu, hfs]
        rw [hloop]
        refine ⟨?_, (ih t ht).2⟩
        simp only [List.mem_cons]
        push_neg
        exact ⟨htr, (ih t ht).1⟩
      | some summary =>
        cases hskip : hasSub (lowerCps oq) (cp "what is") && is_specific_article r summary with
        | true =>
          have hloop : scoreLoop fs oq cq (r :: rest) =
              ((scoreLoop fs oq cq rest).1, r :: (scoreLoop fs oq cq rest).2) := by
            simp only [scoreLoop, hu, hfs]
            rw [if_pos hskip]
            simp only [Bool.false_eq_true, if_false]
          rw [hloop]
          refine ⟨?_, (ih t ht).2⟩
          simp only [List.mem_cons]
          push_neg
          exact ⟨htr, (ih t ht).1⟩
        | false =>
          constructor
          · show t ∉ (scoreLoop fs oq cq (r :: rest)).2
            simp only [scoreLoop, hu, hfs, hskip, Bool.false_eq_true, if_false]
            simp only [List.mem_cons, not_or]
            exact ⟨htr, (ih t ht).1⟩
          · intro sc sm
            show (t, sc, sm) ∉ (scoreLoop fs oq cq (r :: rest)).1
            simp only [scoreLoop, hu, hfs, hskip, Bool.false_eq_true, if_false]
            simp only [List.mem_cons, not_or]
            refine ⟨?_, (ih t ht).2 sc sm⟩
            intro heq
            exact htr (congrArg Prod.fst heq)

/-- Evaluation helper for the ratio at concrete inputs: the Nat-level pieces are
computed by the kernel, and the rational value follows. -/
theorem ratioQ_eval (a b : List Nat) (m la lb : Nat) (hm : matchSumTop a b = m)
    (ha : a.length = la) (hb : b.length = lb) (h0 : la + lb ≠ 0) :
    ratioQ a b = 2 * (m : ℚ) / ((la : ℚ) + (lb : ℚ)) := by
  unfold ratioQ
  rw [hm, ha, hb, if_neg h0]

/-!
## The claims
-/

/-- Claim C1 counterexample: on the input "Founded in 1889 and renovated in 2005."
the date extractor of src/chatbot.py does not return both years. -/
theorem C1_counterexample :
    extract_dates (cp "Founded in 1889 and renovated in 2005.") ≠ [cp "1889", cp "2005"] := by
  decide

/-- Claim C1 (amended): extract_dates("Founded in 1889 and renovated in 2005.")
returns exactly ["2005"]: the bare-year alternative of the date pattern only matches
years beginning 19 or 20 (the range [1900, 2099]), so 1889 is not matched, and no
day-month form occurs in the text. -/
theorem C1_dates_amended :
    extract_dates (cp "Founded in 1889 and renovated in 2005.") = [cp "2005"] := by
  decide

/-- The options offered by the DisambiguationError of the mercury scenario. -/
def mercuryOptions : List (List Nat) :=
  [cp "Mercury (planet)", cp "Mercury (element)", cp "Mercury (mythology)"]

/-- A backend turn in which wikipedia.search raises DisambiguationError. -/
def mercuryBackend : Backend :=
  { searchResults := .error (.disambiguationError mercuryOptions),
    fetchPage := fun _ => none, fetchSummary := fun _ => none }

/-- The query_info of the query "mercury" (no measurement, time or verification flag). -/
def mercuryQi : QueryInfo :=
  { original_query := cp "mercury", corrected_query := cp "mercury",
    query_type := cp "general", is_measurement := false, is_time := false,
    needs_verification := false }

/-- Claim C2, evaluated at the failing input: when the backend raises an
ambiguous-title condition for the primary query, src/chatbot.py does not produce an
error answer at all — its except clause calls the undefined method
_handle_disambiguation, so the turn raises AttributeError, which nothing in
get_response or the read loop catches; the process dies instead of continuing.
src/chatboy.py, by contrast, returns the "Please be more specific" message listing
the first 3 options, as the claim describes. -/
theorem C2_disambiguation_bug :
    getResponse mercuryBackend mercuryQi = .error PyExc.attributeError ∧
    disambiguationResponse mercuryOptions =
      cp "Please be more specific. Did you mean:\n- Mercury (planet)\n- Mercury (element)\n- Mercury (mythology)" := by
  exact ⟨rfl, by decide⟩

/-- Claim C3 counterexample: the src/chatboy.py scorer is not clamped; on
query "cat" and text "cat." the ratio is 6/7 and the first-sentence bonus pushes the
score to 37/35 > 1. -/
theorem C3_counterexample : 1 < calculate_relevance (cp "cat") (cp "cat.") := by
  unfold calculate_relevance
  rw [if_pos (by decide)]
  rw [ratioQ_eval (lowerCps (cp "cat")) (lowerCps (cp "cat.")) 3 3 4 (by decide) (by decide)
    (by decide) (by decide)]
  norm_num

/-- Claim C3 (amended): the src/chatbot.py scorer _calculate_relevance, and
_verify_information applied on top of it, always lie in [0, 1]; the src/chatboy.py
scorer calculate_relevance is bounded below by 0 but has no upper clamp and is only
bounded by 1.2 (before the further unclamped definition bonuses of
get_wikipedia_summary). -/
theorem C3_score_bounds (q t s : List Nat) (p : Page) :
    (0 ≤ calcRelevance q t s ∧ calcRelevance q t s ≤ 1) ∧
    (0 ≤ verifyInformation (calcRelevance q t s) p ∧
      verifyInformation (calcRelevance q t s) p ≤ 1) ∧
    (0 ≤ calculate_relevance q s ∧ calculate_relevance q s ≤ 12/10) := by
  refine ⟨⟨calcRelevance_nonneg q t s, calcRelevance_le_one q t s⟩,
    ⟨verifyInformation_nonneg _ p (calcRelevance_nonneg q t s), verifyInformation_le_one _ p⟩,
    calculate_relevance_nonneg q s, calculate_relevance_le q s⟩

/-- Claim C4 counterexample: normalizing "What is the tallest mountain?" does not
produce "tallest mountain" — the what-is branch of clean_query returns before the
punctuation-stripping step. -/
theorem C4_counterexample :
    clean_query (cp "What is the tallest mountain?") ≠ cp "tallest mountain" := by
  decide

/-- Claim C4 (amended): clean_query("What is the tallest mountain?") yields
"tallest mountain?" — the question mark survives because the what-is early return
skips punctuation stripping — and clean_query("???") yields the empty string. -/
theorem C4_normalize_amended :
    clean_query (cp "What is the tallest mountain?") = cp "tallest mountain?" ∧
    clean_query (cp "???") = cp "" := by
  exact ⟨by decide, by decide⟩

/-- Claim C5: both confidence tables (the 4-bucket _get_confidence_level of
src/chatbot.py and the inline 3-bucket table of src/chatboy.py) are deterministic,
monotone in the order Low < Medium < High < Very High, and their thresholds are
strict: the score 0.6 falls on the Medium side in both, while 0.6 + 1e-7 is High. -/
theorem C5_confidence_monotone :
    (∀ s1 s2 : ℚ, s1 ≤ s2 → confRank (getConfidenceLevel s1) ≤ confRank (getConfidenceLevel s2)) ∧
    (∀ s1 s2 : ℚ, s1 ≤ s2 → confRank (chatboyConfidence s1) ≤ confRank (chatboyConfidence s2)) ∧
    getConfidenceLevel (6/10) = cp "Medium" ∧ chatboyConfidence (6/10) = cp "Medium" ∧
    getConfidenceLevel (6/10 + 1/10000000) = cp "High" ∧
    chatboyConfidence (6/10 + 1/10000000) = cp "High" := by
  refine ⟨?_, ?_, ?_, ?_, ?_, ?_⟩
  · intro s1 s2 h
    unfold getConfidenceLevel
    split_ifs <;> first | decide | linarith
  · intro s1 s2 h
    unfold chatboyConfidence
    split_ifs <;> first | decide | linarith
  · unfold getConfidenceLevel
    rw [if_neg (by norm_num), if_neg (by norm_num), if_pos (by norm_num)]
  · unfold chatboyConfidence
    rw [if_neg (by norm_num), if_pos (by norm_num)]
  · unfold getConfidenceLevel
    rw [if_neg (by norm_num), if_pos (by norm_num)]
  · unfold chatboyConfidence
    rw [if_pos (by norm_num)]

/-- Claim C5 witness: the monotonicity applied at the concrete pair 1/2 <= 9/10. -/
theorem C5_witness :
    confRank (getConfidenceLevel (1/2)) ≤ confRank (getConfidenceLevel (9/10)) ∧
    confRank (chatboyConfidence (1/2)) ≤ confRank (chatboyConfidence (9/10)) :=
  ⟨C5_confidence_monotone.1 (1/2) (9/10) (by norm_num),
   C5_confidence_monotone.2.1 (1/2) (9/10) (by norm_num)⟩

/-- Claim C6: a candidate title containing (case-insensitively) a term of the
UNWANTED_KEYWORDS denylist is never fetched and never scored by the candidate loop
of get_wikipedia_summary, and the two example titles classify as the claim states.
(The denylist exists only in src/chatboy.py; src/chatbot.py has no such filter.) -/
theorem C6_unwanted_filter :
    (∀ (fs : List Nat → Option (List Nat)) (oq cq : List Nat)
        (results : List (List Nat)) (t : List Nat),
      is_unwanted t = true →
        t ∉ (scoreLoop fs oq cq results).2 ∧
        ∀ sc sm, (t, sc, sm) ∉ (scoreLoop fs oq cq results).1) ∧
    is_unwanted (cp "Inception (film)") = true ∧
    is_unwanted (cp "Mount Everest") = false := by
  exact ⟨fun fs oq cq results t ht => scoreLoop_unwanted fs oq cq results t ht,
    by decide, by decide⟩

/-- Claim C6 witness: the filtered title "Inception (film)" is neither fetched nor
scored in a concrete run of the loop. -/
theorem C6_witness :
    is_unwanted (cp "Inception (film)") = true ∧
    (cp "Inception (film)") ∉
      (scoreLoop (fun _ => some (cp "s")) (cp "q") (cp "q") [cp "Inception (film)"]).2 ∧
    ∀ sc sm, ((cp "Inception (film)"), sc, sm) ∉
      (scoreLoop (fun _ => some (cp "s")) (cp "q") (cp "q") [cp "Inception (film)"]).1 := by
  refine ⟨by decide, ?_, ?_⟩
  · exact (C6_unwanted_filter.1 (fun _ => some (cp "s")) (cp "q") (cp "q")
      [cp "Inception (film)"] (cp "Inception (film)") (by decide)).1
  · exact (C6_unwanted_filter.1 (fun _ => some (cp "s")) (cp "q") (cp "q")
      [cp "Inception (film)"] (cp "Inception (film)") (by decide)).2

/-- Claim C7 counterexample: with query "ab", empty title and summary "ab", the
score is 0.8, but with the exact query appended to the summary (summary "abab") the
similarity ratio drops to 2/3 and the score falls to 0.6 — appending the query
strictly decreased the score. -/
theorem C7_counterexample :
    calcRelevance (cp "ab") (cp "") (cp "ab" ++ cp "ab") <
      calcRelevance (cp "ab") (cp "") (cp "ab") := by
  simp only [calcRelevance]
  rw [if_pos (by decide), if_pos (by decide)]
  rw [ratioQ_eval (lowerCps (cp "ab")) (lowerCps (cp "")) 0 2 0 (by decide) (by decide)
    (by decide) (by decide)]
  rw [ratioQ_eval (lowerCps (cp "ab")) (lowerCps (cp "ab" ++ cp "ab")) 2 2 4 (by decide)
    (by decide) (by decide) (by decide)]
  rw [ratioQ_eval (lowerCps (cp "ab")) (lowerCps (cp "ab")) 2 2 2 (by decide) (by decide)
    (by decide) (by decide)]
  norm_num

/-- Claim C7 (amended): appending the exact query string to the summary always
makes the exact-substring bonus fire, so the resulting _calculate_relevance score is
at least 0.2; full monotonicity fails because the similarity-ratio component can
drop by more than the bonus gained (see the counterexample). -/
theorem C7_append_bonus (q t s : List Nat) : 2/10 ≤ calcRelevance q t (s ++ q) := by
  simp only [calcRelevance]
  have hsub : hasSub (lowerCps (s ++ q)) (lowerCps q) = true := by
    unfold lowerCps
    rw [List.map_append]
    exact hasSub_append_self _ _
  rw [if_pos (by rw [Bool.or_eq_true]; exact Or.inr hsub)]
  apply le_min _ (by norm_num)
  have h1 := ratioQ_nonneg (lowerCps q) (lowerCps t)
  have h2 := ratioQ_nonneg (lowerCps q) (lowerCps (s ++ q))
  nlinarith

/-- Claim C9: on a measurement-flagged query, candidates are tried strictly in
search-result order; the first candidate whose fetched content (first 2000
characters) yields at least one measurement token is returned immediately, with
confidence High when more than one token was extracted and Medium when exactly one
(the token list is nonempty at the hit); and when no candidate yields any token the
handler falls through to the general scoring path over the same results. -/
theorem C9_measurement_path (bk : Backend) (qi : QueryInfo) (results : List (List Nat)) :
    (results.find? (measHit bk) = none →
      handleMeasurementQuery bk results qi = handleGeneralQuery bk results qi) ∧
    (∀ r, results.find? (measHit bk) = some r →
      ∃ p, bk.fetchPage r = some p ∧
        handleMeasurementQuery bk results qi =
          { title := p.title,
            summary := formatMeasurementResponse (extract_measurements (p.content.take 2000)),
            confidence :=
              if 1 < (extract_measurements (p.content.take 2000)).length then cp "High"
              else cp "Medium",
            source_url := some p.url } ) :=
  hmqLoop_spec bk qi results results

/-- The page of the C9 witness backend: its content yields two measurement tokens. -/
def c9Page : Page :=
  { title := cp "Mount Everest", content := cp "It is 8849 meters or 29032 feet tall.",
    url := cp "https://w/Mount_Everest", references := [] }

/-- The C9 witness backend: one search result whose page is c9Page. -/
def c9Backend : Backend :=
  { searchResults := .ok [cp "Everest"],
    fetchPage := fun t => if t = cp "Everest" then some c9Page else none,
    fetchSummary := fun _ => none }

/-- The query_info of the C9 witness (a measurement-flagged query). -/
def c9Qi : QueryInfo :=
  { original_query := cp "height of everest", corrected_query := cp "height of everest",
    query_type := cp "general", is_measurement := true, is_time := false,
    needs_verification := false }

/-- Claim C9 witness: the first-match rule applied to a concrete backend. -/
theorem C9_witness :
    ∃ p, c9Backend.fetchPage (cp "Everest") = some p ∧
      handleMeasurementQuery c9Backend [cp "Everest"] c9Qi =
        { title := p.title,
          summary := formatMeasurementResponse (extract_measurements (p.content.take 2000)),
          confidence :=
            if 1 < (extract_measurements (p.content.take 2000)).length then cp "High"
            else cp "Medium",
          source_url := some p.url } :=
  (C9_measurement_path c9Backend c9Qi [cp "Everest"]).2 (cp "Everest") (by decide)

/-- Claim C8 counterexample: clean_query is not idempotent.  On
"what is what is a dog" the what-is branch strips one "what is " prefix and returns
"what is a dog"; applying clean_query again strips the second prefix (and the
article) and returns "dog". -/
theorem C8_counterexample :
    clean_query (clean_query (cp "what is what is a dog")) ≠
      clean_query (cp "what is what is a dog") := by
  decide

/-- Claim C8 (amended): the spelling-correction normalizer correct_spelling of
src/chatbot.py is idempotent (no correction value is itself a key, lowering and
whitespace collapsing are projections); the clean_query normalizer of src/chatboy.py
is not (see the counterexample). -/
theorem C8_spelling_idem (x : List Nat) :
    correct_spelling (correct_spelling x) = correct_spelling x :=
  correct_spelling_idem x

/-- Claim C10: in the general path the running best score starts at 0 and only a
strictly greater score replaces the best answer.  Hence a candidate scoring exactly
0 is never selected: when every successfully evaluated candidate scores 0 the turn
ends in the "Could not find relevant information" error answer even though
candidates were fetched and scored; and the selected answer is always the earliest
candidate attaining the maximal (positive) score. -/
theorem C10_zero_never_selected (bk : Backend) (qi : QueryInfo) (results : List (List Nat)) :
    ((∀ p ∈ evalAnswers bk qi results, p.2 = 0) →
      handleGeneralQuery bk results qi = formatError (cp "Could not find relevant information")) ∧
    (∀ n (h : n < (evalAnswers bk qi results).length),
      0 < ((evalAnswers bk qi results).get ⟨n, h⟩).2 →
      (∀ q ∈ evalAnswers bk qi results, q.2 ≤ ((evalAnswers bk qi results).get ⟨n, h⟩).2) →
      (∀ m (hm : m < n), ((evalAnswers bk qi results).get ⟨m, Nat.lt_trans hm h⟩).2 <
          ((evalAnswers bk qi results).get ⟨n, h⟩).2) →
      handleGeneralQuery bk results qi = ((evalAnswers bk qi results).get ⟨n, h⟩).1) := by
  constructor
  · intro hall
    unfold handleGeneralQuery
    rw [glLoop_eq_selStep]
    rw [selStep_all_le _ 0 none (fun p hp => le_of_eq (hall p hp))]
  · intro n h hpos hmax hfirst
    unfold handleGeneralQuery
    rw [glLoop_eq_selStep]
    rw [selStep_first_max _ 0 none n h hpos hmax hfirst]

/-- The page of the C10 witness backend. -/
def c10Page : Page :=
  { title := cp "q", content := cp "", url := cp "u", references := [] }

/-- The C10 witness backend: page and summary fetches succeed for the single result. -/
def c10Backend : Backend :=
  { searchResults := .ok [cp "A"],
    fetchPage := fun _ => some c10Page,
    fetchSummary := fun _ => some (cp "x") }

/-- The query_info of the C10 witness: its corrected query shares no character with
the candidate title or summary, so the relevance score is exactly 0. -/
def c10Qi : QueryInfo :=
  { original_query := cp "z", corrected_query := cp "z", query_type := cp "general",
    is_measurement := false, is_time := false, needs_verification := false }

/-- The single evaluated candidate of the C10 witness scores exactly 0. -/
theorem c10_score_zero : calcRelevance (cp "z") (cp "q") (cp "x") = 0 := by
  simp only [calcRelevance]
  rw [if_neg (by decide)]
  rw [ratioQ_eval (lowerCps (cp "z")) (lowerCps (cp "q")) 0 1 1 (by decide) (by decide)
    (by decide) (by decide)]
  rw [ratioQ_eval (lowerCps (cp "z")) (lowerCps (cp "x")) 0 1 1 (by decide) (by decide)
    (by decide) (by decide)]
  norm_num

/-- Claim C10 witness: a candidate is fetched and scored without failure, its score
is exactly 0, and the turn nevertheless ends in the error answer. -/
theorem C10_witness :
    handleGeneralQuery c10Backend [cp "A"] c10Qi =
      formatError (cp "Could not find relevant information") := by
  apply (C10_zero_never_selected c10Backend c10Qi [cp "A"]).1
  intro p hp
  have hlist : evalAnswers c10Backend c10Qi [cp "A"] =
      [({ title := cp "q", summary := cp "x",
          confidence := getConfidenceLevel (calcRelevance (cp "z") (cp "q") (cp "x")),
          source_url := some (cp "u") }, calcRelevance (cp "z") (cp "q") (cp "x"))] := by
    simp [evalAnswers, candidateEval, c10Backend, c10Qi, c10Page]
  rw [hlist] at hp
  rcases List.mem_singleton.mp hp with rfl
  exact c10_score_zero
